import Mathlib

/-!
Verification of the GeminiMcpTest repository's thought-session server
(`src/index.ts`, class `GeminiThinkingServer`) and its codebase-analysis
client's relevance filter and keyword extractor
(`src/unnamed/part_002`, functions `semanticCodeFilter` and
`extractKeywords`).

The embedding models JS values as `JsonVal` (JSON values with rational
numbers), server state as `SessionState`, and the two external effects of a
turn — the Gemini generation call and the file system — as oracle
parameters.  JS strings are Lean `String`s (the sources only manipulate
them through ASCII-safe operations), and `JSON.parse ∘ JSON.stringify` is
the identity on the modelled values, so saved session files are carried as
structured `JsonVal` data rather than text.
-/

namespace GeminiMcp

/-- A JSON value, as produced by `JSON.parse` and consumed by
`JSON.stringify`.  Numbers are modelled as rationals (exact for every value
the claims touch; JS number arithmetic performed by the sources on these
values is restricted to halving/multiplying small scores, which is exact in
binary floating point as well). -/
inductive JsonVal : Type where
  | str (s : String)
  | num (q : ℚ)
  | bool (b : Bool)
  | null
  | arr (elems : List JsonVal)
  | obj (fields : List (String × JsonVal))

/-- JavaScript truthiness of a JSON value (`NaN` is unrepresentable here;
no claim involves it). -/
def truthy : JsonVal → Bool
  | .str s => s ≠ ""
  | .num q => q ≠ 0
  | .bool b => b
  | .null => false
  | .arr _ => true
  | .obj _ => true

/-- Property read `obj[k]`: `none` models JS `undefined` (absent key or
non-object receiver). -/
def JsonVal.getField : JsonVal → String → Option JsonVal
  | .obj fields, k => (fields.find? (fun p => p.1 = k)).map (fun p => p.2)
  | _, _ => none

def JsonVal.isStr : JsonVal → Bool
  | .str _ => true
  | _ => false

/-- Truthiness of a possibly-absent JS property. -/
def truthyOpt : Option JsonVal → Bool
  | some v => truthy v
  | none => false

/-- One validated thought record (`ThoughtData` in `src/index.ts:18-35`).
The four validated fields get native types; the unvalidated optional fields
keep the raw JSON value that the source merely type-casts.  An `Option`
field being `none` corresponds to the JS property being absent or
`undefined`, which are indistinguishable to every operation the server
performs on these records (property reads, `Object.assign`, pushes, and
`JSON.stringify`, which omits `undefined`-valued keys). -/
structure ThoughtData where
  query : String
  context : Option JsonVal
  approach : Option JsonVal
  thought : JsonVal
  thoughtNumber : ℚ
  totalThoughts : ℚ
  previousThoughts : Option JsonVal
  nextThoughtNeeded : Bool
  isRevision : Option JsonVal
  revisesThought : Option JsonVal
  branchFromThought : Option JsonVal
  branchId : Option JsonVal
  needsMoreThoughts : Option JsonVal
  metaComments : Option JsonVal
  confidenceLevel : Option JsonVal
  alternativePaths : Option JsonVal

/-- `validateThoughtData` (src/index.ts:49-83).  Checks the four required
fields exactly as the source does (JS truthiness first, then `typeof`), and
otherwise copies raw values through.  `thought` defaults to `""` when falsy
(`data.thought as string || ""`). -/
def validateThoughtData (input : JsonVal) : Except String ThoughtData :=
  let q := input.getField "query"
  if !truthyOpt q || !(q.map JsonVal.isStr).getD false then
    .error "Invalid query: must be a string"
  else
    let tn := input.getField "thoughtNumber"
    if !truthyOpt tn || !(match tn with | some (.num _) => true | _ => false) then
      .error "Invalid thoughtNumber: must be a number"
    else
      let tt := input.getField "totalThoughts"
      if !truthyOpt tt || !(match tt with | some (.num _) => true | _ => false) then
        .error "Invalid totalThoughts: must be a number"
      else
        match input.getField "nextThoughtNeeded" with
        | some (.bool b) =>
          .ok {
            query := match q with | some (.str s) => s | _ => ""
            context := input.getField "context"
            approach := input.getField "approach"
            thought := match input.getField "thought" with
              | some v => if truthy v then v else .str ""
              | none => .str ""
            thoughtNumber := match tn with | some (.num n) => n | _ => 0
            totalThoughts := match tt with | some (.num n) => n | _ => 0
            previousThoughts := input.getField "previousThoughts"
            nextThoughtNeeded := b
            isRevision := input.getField "isRevision"
            revisesThought := input.getField "revisesThought"
            branchFromThought := input.getField "branchFromThought"
            branchId := input.getField "branchId"
            needsMoreThoughts := input.getField "needsMoreThoughts"
            metaComments := input.getField "metaComments"
            confidenceLevel := input.getField "confidenceLevel"
            alternativePaths := input.getField "alternativePaths" }
        | _ => .error "Invalid nextThoughtNeeded: must be a boolean"

/-- Prefix test against the lower-cased text, for the `/…/i` marker
regexes (the pattern argument is supplied already lower-cased). -/
def startsWithCI : List Char → List Char → Bool
  | [], _ => true
  | _ :: _, [] => false
  | p :: ps, c :: cs => p = c.toLower && startsWithCI ps cs

/-- Index of the first case-insensitive occurrence of `pat` in `text`. -/
def findIdxCI (pat : List Char) : List Char → Option Nat
  | [] => if startsWithCI pat [] then some 0 else none
  | c :: cs =>
    if startsWithCI pat (c :: cs) then some 0
    else (findIdxCI pat cs).map (· + 1)

def digitsToNat (ds : List Char) : ℕ :=
  ds.foldl (fun n c => n * 10 + (c.toNat - 48)) 0

/-- `parseFloat` on a capture of the shape `digits` or `digits.digits`. -/
def parseDecimal (ds : List Char) : ℚ :=
  let ip := ds.takeWhile (fun c => c ≠ '.')
  let fp := ds.drop (ip.length + 1)
  (digitsToNat ip : ℚ) + (digitsToNat fp : ℚ) / (10 : ℚ) ^ fp.length

/-- Capture group of the `/MARKER:(.*?)(?:\n|$)/i` regexes
(src/index.ts:190,200): the text between the first case-insensitive
occurrence of the marker and the following newline (or the end). -/
def markerCapture (marker : List Char) (text : List Char) : Option (List Char) :=
  (findIdxCI marker text).map
    (fun i => (text.drop (i + marker.length)).takeWhile (fun c => c ≠ '\n'))

/-- First index at which `/CONFIDENCE:(\d+(?:\.\d+)?)%?/i`
(src/index.ts:195) matches: the marker must be immediately followed by a
digit for the whole pattern to match at that position. -/
def findConfIdx : List Char → Option Nat
  | [] => none
  | c :: cs =>
    if startsWithCI "confidence:".data (c :: cs)
        && (match (c :: cs).drop 11 with
            | d :: _ => d.isDigit
            | [] => false) then
      some 0
    else (findConfIdx cs).map (· + 1)

/-- The numeric capture of the confidence regex at match position `i`. -/
def confCaptureAt (text : List Char) (i : Nat) : List Char :=
  let rest := text.drop (i + 11)
  let ip := rest.takeWhile Char.isDigit
  match rest.drop ip.length with
  | '.' :: r2 =>
    let fp := r2.takeWhile Char.isDigit
    if fp.isEmpty then ip else ip ++ '.' :: fp
  | _ => ip

/-- `replace(/MARKER:.*?(?:\n|$)/i, '')` (src/index.ts:206-209): the first
case-insensitive match, up to and including the newline it consumes, is
removed. -/
def removeMarkerLine (marker : List Char) (text : List Char) : List Char :=
  match findIdxCI marker text with
  | none => text
  | some i =>
    let rest := (text.drop i).dropWhile (fun c => c ≠ '\n')
    text.take i ++ (match rest with
      | [] => []
      | _ :: t => t)

/-- `generateThoughtWithGemini` (src/index.ts:140-227).  The external Gemini
call is an oracle: `gen` carries either the raw generated text or the thrown
error's message (the prompt the source builds only feeds that external call,
so it does not influence the model).  On failure the `catch` substitutes a
diagnostic body; on success the META / CONFIDENCE / ALTERNATIVES markers are
extracted and stripped. -/
def generateThoughtWithGemini (gen : Except String String)
    (input : ThoughtData) : ThoughtData :=
  match gen with
  | .error e => { input with thought := .str ("Error generating thought: " ++ e) }
  | .ok generatedText =>
    let cs := generatedText.data
    let metaComments : String :=
      ((markerCapture "meta:".data cs).map (fun c => c.asString.trim)).getD ""
    let confidenceLevel : ℚ :=
      match findConfIdx cs with
      | some i => parseDecimal (confCaptureAt cs i) / 100
      | none => 0
    let alternativePaths : List String :=
      match markerCapture "alternatives:".data cs with
      | some c => (c.asString.splitOn "|").map String.trim
      | none => []
    let cleanedText :=
      (removeMarkerLine "alternatives:".data
        (removeMarkerLine "confidence:".data
          (removeMarkerLine "meta:".data cs))).asString.trim
    { input with
      thought := .str cleanedText
      metaComments := some (.str metaComments)
      confidenceLevel := some (.num confidenceLevel)
      alternativePaths := some (.arr (alternativePaths.map .str)) }

/-- In-memory server state: `thoughtHistory` and `branches` of
`GeminiThinkingServer` (src/index.ts:38-39).  History entries are raw JS
objects — after a malformed `loadSession` they need not be thought-shaped —
and branch values are raw JS values (arrays in every state the claims
reach). -/
structure SessionState where
  thoughtHistory : List JsonVal
  branches : List (String × JsonVal)

def initialState : SessionState := { thoughtHistory := [], branches := [] }

def optField (k : String) : Option JsonVal → List (String × JsonVal)
  | some v => [(k, v)]
  | none => []

/-- The JS object built by `validateThoughtData`, as `JSON.stringify` and
property reads observe it (`undefined`-valued keys are absent). -/
def ThoughtData.toJson (td : ThoughtData) : JsonVal :=
  .obj ([("query", .str td.query)]
    ++ optField "context" td.context
    ++ optField "approach" td.approach
    ++ [("thought", td.thought),
        ("thoughtNumber", .num td.thoughtNumber),
        ("totalThoughts", .num td.totalThoughts)]
    ++ optField "previousThoughts" td.previousThoughts
    ++ [("nextThoughtNeeded", .bool td.nextThoughtNeeded)]
    ++ optField "isRevision" td.isRevision
    ++ optField "revisesThought" td.revisesThought
    ++ optField "branchFromThought" td.branchFromThought
    ++ optField "branchId" td.branchId
    ++ optField "needsMoreThoughts" td.needsMoreThoughts
    ++ optField "metaComments" td.metaComments
    ++ optField "confidenceLevel" td.confidenceLevel
    ++ optField "alternativePaths" td.alternativePaths)

def lookupAssoc (m : List (String × JsonVal)) (k : String) : Option JsonVal :=
  (m.find? (fun p => p.1 = k)).map (fun p => p.2)

/-- JS property write on an object: an existing key keeps its position, a
new key is appended. -/
def setAssoc : List (String × JsonVal) → String → JsonVal → List (String × JsonVal)
  | [], k, v => [(k, v)]
  | p :: ps, k, v => if p.1 = k then (k, v) :: ps else p :: setAssoc ps k v

/-- JS coercion of a (truthy) `branchId` value to a property key.  Only
string ids occur in the claims; the remaining cases are best-effort. -/
def branchKey : JsonVal → String
  | .str s => s
  | .bool b => if b then "true" else "false"
  | .null => "null"
  | .num q => if q.den = 1 then toString q.num else toString q
  | .arr _ => ""
  | .obj _ => "[object Object]"

/-- `if (!this.branches[id]) this.branches[id] = []; this.branches[id].push(x)`
(src/index.ts:371-376).  Pushing onto a truthy non-array value throws a
`TypeError`; a falsy value is reinitialised to `[]` first. -/
def pushBranch (branches : List (String × JsonVal)) (k : String) (x : JsonVal) :
    Except String (List (String × JsonVal)) :=
  match lookupAssoc branches k with
  | none => .ok (branches ++ [(k, .arr [x])])
  | some (.arr xs) => .ok (setAssoc branches k (.arr (xs ++ [x])))
  | some v =>
    if truthy v then
      .error "this.branches[validatedInput.branchId].push is not a function"
    else .ok (setAssoc branches k (.arr [x]))

/-- `!validatedInput.thought || validatedInput.thought.trim() === ""`
(src/index.ts:364): the `Bool` result, or the `TypeError` message when the
value is truthy but has no `trim` method (only truthy values reach the
method call, because `||` short-circuits). -/
def blankCheck : JsonVal → Except String Bool
  | .str s => .ok (s = "" || s.trim = "")
  | .num q =>
    if q = 0 then .ok true
    else .error "validatedInput.thought.trim is not a function"
  | .bool b =>
    if b then .error "validatedInput.thought.trim is not a function"
    else .ok true
  | .null => .ok true
  | .arr _ => .error "validatedInput.thought.trim is not a function"
  | .obj _ => .error "validatedInput.thought.trim is not a function"

/-- Steps 359-367 of `processThought`: raise `totalThoughts` to
`thoughtNumber` when exceeded, then generate the thought body when it is
missing or blank (`Object.assign` makes the generated record the stored
one). -/
def finalizeThought (gen : Except String String) (td0 : ThoughtData) :
    Except String ThoughtData :=
  let td1 :=
    if td0.thoughtNumber > td0.totalThoughts then
      { td0 with totalThoughts := td0.thoughtNumber }
    else td0
  match blankCheck td1.thought with
  | .error m => .error m
  | .ok true => .ok (generateThoughtWithGemini gen td1)
  | .ok false => .ok td1

/-- `validatedInput.branchFromThought && validatedInput.branchId`
(src/index.ts:371). -/
def branchCond (td : ThoughtData) : Bool :=
  truthyOpt td.branchFromThought && truthyOpt td.branchId

/-- Whether a JS property key is an array index (canonical numeric string
below `2^32 - 1`).  Such keys enumerate before all other keys, in ascending
numeric order. -/
def isArrayIndexKey (s : String) : Bool :=
  s ≠ "" && s.data.all Char.isDigit && (s = "0" || s.data.head? ≠ some '0')
    && digitsToNat s.data < 4294967295

instance decKeyNumLe {α : Type} :
    DecidableRel (fun (a b : String × α) =>
      digitsToNat a.1.data ≤ digitsToNat b.1.data) :=
  fun _ _ => Nat.decLe _ _

/-- `Object.entries` / `Object.keys` enumeration order over an
insertion-ordered property list: array-index keys first, ascending, then the
remaining keys in insertion order. -/
def objectEntries {α : Type} (m : List (String × α)) : List (String × α) :=
  (m.filter (fun p => isArrayIndexKey p.1)).insertionSort
      (fun a b => digitsToNat a.1.data ≤ digitsToNat b.1.data)
    ++ m.filter (fun p => !isArrayIndexKey p.1)

def jsObjKeys {α : Type} (m : List (String × α)) : List String :=
  (objectEntries m).map (fun p => p.1)

/-- The session object written by `saveSession` (src/index.ts:229-245), with
the wall clock (`new Date().toISOString()`) passed in.  The file-system
write itself is an external effect recorded in the turn outcome. -/
def saveSessionData (now : String) (s : SessionState) : JsonVal :=
  .obj [("thoughtHistory", .arr s.thoughtHistory),
        ("branches", .obj s.branches),
        ("timestamp", .str now),
        ("version", .str "0.1.0")]

/-- `loadSession` (src/index.ts:247-279).  `fileData` is the parsed content
of the session file; `none` covers a missing, unreadable or unparseable file
(each of those paths returns `false` with the state untouched).  The only
shape check is `Array.isArray(sessionData.thoughtHistory)`; the array's
ELEMENTS are not validated.  `branches` falls back to `{}` when falsy; a
truthy non-object `branches` value is also modelled as the empty object
(that corner is unreachable from any saved file and no claim touches it). -/
def loadSession (fileData : Option JsonVal) (s : SessionState) :
    Bool × SessionState :=
  match fileData with
  | none => (false, s)
  | some payload =>
    match payload.getField "thoughtHistory" with
    | some (.arr xs) =>
      let branches :=
        match payload.getField "branches" with
        | some (.obj fs) => fs
        | some v => if truthy v then [] else []
        | none => []
      (true, { thoughtHistory := xs, branches := branches })
    | _ => (false, s)

/-- Result of one `processThought` call: the JSON envelope inside the
returned `content[0].text`, the `isError` flag, the state after the call,
and the `(path, data)` pairs written to disk during the call. -/
structure TurnOutcome where
  envelope : JsonVal
  isError : Bool
  state : SessionState
  writes : List (String × JsonVal)

def errorEnvelope (msg : String) : JsonVal :=
  .obj [("error", .str msg), ("status", .str "failed")]

/-- The success envelope of a thought turn (src/index.ts:381-396);
`undefined`-valued meta fields are omitted by `JSON.stringify`. -/
def successEnvelope (td : ThoughtData) (branches : List (String × JsonVal))
    (histLen : ℕ) : JsonVal :=
  .obj ([("thought", td.thought),
         ("thoughtNumber", .num td.thoughtNumber),
         ("totalThoughts", .num td.totalThoughts),
         ("nextThoughtNeeded", .bool td.nextThoughtNeeded),
         ("branches", .arr ((jsObjKeys branches).map .str)),
         ("thoughtHistoryLength", .num (histLen : ℚ))]
    ++ optField "metaComments" td.metaComments
    ++ optField "confidenceLevel" td.confidenceLevel
    ++ optField "alternativePaths" td.alternativePaths)

/-- The `sessionCommand` dispatch guard (src/index.ts:294): present, a
string, and truthy. -/
def sessionCommandOf (input : JsonVal) : Option String :=
  match input.getField "sessionCommand" with
  | some (.str c) => if c = "" then none else some c
  | _ => none

/-- `processThought` (src/index.ts:289-409).  `fsRead` is the file system as
`loadSession` sees it, `gen` the generation oracle, `now` the wall clock for
`saveSession`.  `console.error` output is diagnostic only and not modelled;
the file write of a save is modelled as succeeding (a throwing write only
flips the save envelope's status and touches no state). -/
def processThought (fsRead : String → Option JsonVal)
    (gen : Except String String) (now : String) (input : JsonVal)
    (s : SessionState) : TurnOutcome :=
  match sessionCommandOf input with
  | some command =>
    let sessionPath := input.getField "sessionPath"
    if command = "save" && truthyOpt sessionPath
        && (sessionPath.map JsonVal.isStr).getD false then
      let path := match sessionPath with | some (.str p) => p | _ => ""
      { envelope := .obj [("status", .str "success"),
          ("message", .str ("Session saved to " ++ path)),
          ("command", .str "save")],
        isError := false, state := s,
        writes := [(path, saveSessionData now s)] }
    else if command = "load" && truthyOpt sessionPath
        && (sessionPath.map JsonVal.isStr).getD false then
      let path := match sessionPath with | some (.str p) => p | _ => ""
      let (ok, s2) := loadSession (fsRead path) s
      { envelope := .obj [("status", .str (if ok then "success" else "error")),
          ("message", .str (if ok then "Session loaded from " ++ path
            else "Failed to load session")),
          ("command", .str "load"),
          ("thoughtHistoryLength", .num (s2.thoughtHistory.length : ℚ)),
          ("branches", .arr ((jsObjKeys s2.branches).map .str))],
        isError := false, state := s2, writes := [] }
    else if command = "getState" then
      { envelope := .obj [("status", .str "success"),
          ("command", .str "getState"),
          ("thoughtHistoryLength", .num (s.thoughtHistory.length : ℚ)),
          ("branches", .arr ((jsObjKeys s.branches).map .str)),
          ("lastThought", (s.thoughtHistory.getLast?).getD .null)],
        isError := false, state := s, writes := [] }
    else
      { envelope := .obj [("status", .str "error"),
          ("message", .str ("Unknown session command: " ++ command)),
          ("command", .str command)],
        isError := true, state := s, writes := [] }
  | none =>
    match validateThoughtData input with
    | .error msg =>
      { envelope := errorEnvelope msg, isError := true, state := s, writes := [] }
    | .ok td0 =>
      match finalizeThought gen td0 with
      | .error msg =>
        { envelope := errorEnvelope msg, isError := true, state := s, writes := [] }
      | .ok td =>
        let hist2 := s.thoughtHistory ++ [ThoughtData.toJson td]
        if branchCond td then
          match pushBranch s.branches (branchKey (td.branchId.getD .null))
              (ThoughtData.toJson td) with
          | .error msg =>
            { envelope := errorEnvelope msg, isError := true,
              state := { thoughtHistory := hist2, branches := s.branches },
              writes := [] }
          | .ok br2 =>
            { envelope := successEnvelope td br2 hist2.length, isError := false,
              state := { thoughtHistory := hist2, branches := br2 }, writes := [] }
        else
          { envelope := successEnvelope td s.branches hist2.length,
            isError := false,
            state := { thoughtHistory := hist2, branches := s.branches },
            writes := [] }

/-- One request together with the environment (file system, generation
oracle, wall clock) it runs against. -/
structure TurnStep where
  fsRead : String → Option JsonVal
  gen : Except String String
  now : String
  arg : JsonVal

def TurnStep.run (t : TurnStep) (s : SessionState) : TurnOutcome :=
  processThought t.fsRead t.gen t.now t.arg s

/-- A request that is a thought turn, not a session command. -/
def isThoughtTurn (input : JsonVal) : Bool :=
  (sessionCommandOf input).isNone

/-- `SuccessfulAppendRun s ts s2`: starting from `s`, every step of `ts` is
a thought turn that completes without `isError`, ending in `s2`. -/
inductive SuccessfulAppendRun : SessionState → List TurnStep → SessionState → Prop
  | nil (s : SessionState) : SuccessfulAppendRun s [] s
  | cons (s : SessionState) (t : TurnStep) (ts : List TurnStep) (s3 : SessionState)
      (hthought : isThoughtTurn t.arg = true)
      (hok : (t.run s).isError = false)
      (htail : SuccessfulAppendRun (t.run s).state ts s3) :
      SuccessfulAppendRun s (t :: ts) s3

/-- States built from the empty store by successful thought appends. -/
def Reachable (s : SessionState) : Prop :=
  ∃ ts, SuccessfulAppendRun initialState ts s

/-- All branch values are arrays, as in every state reached without a
malformed load. -/
def BranchesWellFormed (s : SessionState) : Prop :=
  ∀ p ∈ s.branches, ∃ xs, p.2 = JsonVal.arr xs

/-- The branch list currently stored under `k` (empty when absent or
falsy). -/
def branchListOf (s : SessionState) (k : String) : List JsonVal :=
  match lookupAssoc s.branches k with
  | some (.arr xs) => xs
  | _ => []

end GeminiMcp

namespace GeminiMcp

def toLowerStr (s : String) : String := s.map Char.toLower

/-- `split(/\s+/)`: fields between maximal whitespace runs; a leading or
trailing run contributes an empty field, and the empty string yields one
empty field, exactly as in JS.  Structural recursion on fuel (at least one
character is consumed per step, so `length + 1` fuel always suffices and the
fuel pattern never fires through the wrapper below). -/
def jsSplitWsGo : ℕ → List Char → List (List Char)
  | 0, _ => [[]]
  | _ + 1, [] => [[]]
  | fuel + 1, c :: rest =>
    if c.isWhitespace then
      [] :: jsSplitWsGo fuel (rest.dropWhile Char.isWhitespace)
    else
      match jsSplitWsGo fuel rest with
      | [] => [[c]]
      | w :: ws => (c :: w) :: ws

def jsSplitWs (cs : List Char) : List (List Char) :=
  jsSplitWsGo (cs.length + 1) cs

/-- Whether the fixed-length pattern — a regex of literal characters and
`.`, which matches any character except a newline — matches at the head of
`text`.  This is the exact semantics `new RegExp(term, 'g')` gives the
terms exercised by the claims (no other metacharacter appears in them). -/
def matchesAt : List Char → List Char → Bool
  | [], _ => true
  | _ :: _, [] => false
  | p :: ps, c :: cs =>
    (if p = '.' then c ≠ '\n' else decide (p = c)) && matchesAt ps cs

def jsMatchCountGo (pat : List Char) : ℕ → List Char → ℕ
  | 0, _ => 0
  | _ + 1, [] => 0
  | fuel + 1, c :: cs =>
    if matchesAt pat (c :: cs) then
      1 + jsMatchCountGo pat fuel ((c :: cs).drop pat.length)
    else jsMatchCountGo pat fuel cs

/-- `(str.match(new RegExp(pat, 'g')) || []).length` for a pattern of
literal characters and `.`: the number of non-overlapping leftmost matches.
(An empty pattern matches at every position; terms reaching this function
are always at least 4 characters long, and a nonempty pattern consumes at
least one character per step, so `length` fuel suffices.) -/
def jsMatchCount (pat text : List Char) : ℕ :=
  if pat = [] then text.length + 1
  else jsMatchCountGo pat text.length text

/-- Literal (non-regex) prefix match: every pattern character, `.`
included, must occur verbatim. -/
def literalMatchesAt : List Char → List Char → Bool
  | [], _ => true
  | _ :: _, [] => false
  | p :: ps, c :: cs => decide (p = c) && literalMatchesAt ps cs

def literalCountGo (pat : List Char) : ℕ → List Char → ℕ
  | 0, _ => 0
  | _ + 1, [] => 0
  | fuel + 1, c :: cs =>
    if literalMatchesAt pat (c :: cs) then
      1 + literalCountGo pat fuel ((c :: cs).drop pat.length)
    else literalCountGo pat fuel cs

/-- Count of non-overlapping literal occurrences of `pat` in `text`: the
occurrence count the spec requires the scoring primitive to compute. -/
def literalCount (pat text : List Char) : ℕ :=
  if pat = [] then text.length + 1
  else literalCountGo pat text.length text

/-- Case-sensitive `String.prototype.includes`. -/
def strIncludesGo (sub : List Char) : List Char → Bool
  | [] => literalMatchesAt sub []
  | c :: cs => literalMatchesAt sub (c :: cs) || strIncludesGo sub cs

def jsIncludes (s sub : String) : Bool := strIncludesGo sub.data s.data

/-- JS `Map.set`: an existing key keeps its position, a new key is
appended. -/
def mapSet : List (String × String) → String → String → List (String × String)
  | [], k, v => [(k, v)]
  | p :: ps, k, v => if p.1 = k then (k, v) :: ps else p :: mapSet ps k v

/-- First pass of `semanticCodeFilter` (part_002:37-54): group the
document's lines into (file name, content) sections at `File: ` boundary
lines.  A section's content is the boundary line plus every following line,
each with its newline re-attached; text before the first boundary (or under
a blank-named boundary) is dropped. -/
def parseFilesGo : List String → String → String → List (String × String) →
    List (String × String)
  | [], cf, cc, acc => if cf ≠ "" && cc ≠ "" then mapSet acc cf cc else acc
  | l :: ls, cf, cc, acc =>
    if l.startsWith "File: " then
      parseFilesGo ls ((l.drop 6).trim) (l ++ "\n")
        (if cf ≠ "" && cc ≠ "" then mapSet acc cf cc else acc)
    else if cf ≠ "" then parseFilesGo ls cf (cc ++ l ++ "\n") acc
    else parseFilesGo ls cf cc acc

def parseFiles (doc : String) : List (String × String) :=
  parseFilesGo (doc.splitOn "\n") "" "" []

/-- `queryTerms` (part_002:57): lowercased whitespace-split tokens of
length above 3, duplicates kept. -/
def queryTermsOf (query : String) : List String :=
  ((jsSplitWs (toLowerStr query).data).map List.asString).filter
    (fun t => t.length > 3)

/-- The frequency part of a section's score (part_002:60-77): 2 points per
query-term match plus 1 point per keyword match, both counted through
`lowerContent.match(new RegExp(term, 'g'))` (a null match result adds
nothing, exactly like a zero count). -/
def freqScore (queryTerms keywords : List String) (content : String) : ℚ :=
  let lowerContent := toLowerStr content
  let s1 : ℚ := queryTerms.foldl
    (fun sc term => sc + (jsMatchCount term.data lowerContent.data : ℚ) * 2) 0
  keywords.foldl
    (fun sc kw => sc + (jsMatchCount (toLowerStr kw).data lowerContent.data : ℚ))
    s1

/-- The path-based weighting (part_002:79-87): `score *= 0.5` for test/spec
names, then `score *= 1.5` for interface/type/model names, both through the
case-sensitive `String.prototype.includes`. -/
def adjustedScore (file : String) (score : ℚ) : ℚ :=
  let s1 := if jsIncludes file "test" || jsIncludes file "spec" then
      score * (1 / 2 : ℚ)
    else score
  if jsIncludes file "interface" || jsIncludes file "type"
      || jsIncludes file "model" then
    s1 * (3 / 2 : ℚ)
  else s1

/-- The second pass of `semanticCodeFilter` (part_002:56-89): every parsed
section with its final score, in insertion order. -/
def fileScoresOf (doc query : String) (keywords : List String) :
    List (String × ℚ) :=
  let queryTerms := queryTermsOf query
  (parseFiles doc).map
    (fun p => (p.1, adjustedScore p.1 (freqScore queryTerms keywords p.2)))

instance decScoreDesc : DecidableRel (fun (a b : String × ℚ) => b.2 ≤ a.2) :=
  fun a b => inferInstanceAs (Decidable (b.2 ≤ a.2))

/-- `[...fileScores.entries()].sort((a, b) => b[1] - a[1]).slice(0, 10)`
(part_002:92-94).  The JS sort is stable, and any stable sort by this
comparator yields the same list; a stable insertion sort on the
descending-score relation computes it. -/
def sortedFilesOf (doc query : String) (keywords : List String) :
    List (String × ℚ) :=
  ((fileScoresOf doc query keywords).insertionSort
    (fun a b => b.2 ≤ a.2)).take 10

/-- The reassembled output of `semanticCodeFilter` (part_002:101-106):
the selected sections' contents in score order, each followed by an extra
newline. -/
def semanticCodeFilter (doc query : String) (keywords : List String) : String :=
  (sortedFilesOf doc query keywords).foldl
    (fun acc p =>
      acc ++ (((parseFiles doc).find? (fun q => q.1 = p.1)).map
        (fun q => q.2)).getD "" ++ "\n") ""

/-- The stop-word list hard-coded in `extractKeywords` (part_002:112-120). -/
def stopWords : List String :=
  ["a", "an", "the", "and", "or", "but", "in", "on", "at", "to", "for", "with",
   "about", "is", "are", "was", "were", "be", "been", "being", "have", "has",
   "had", "do", "does", "did", "can", "could", "will", "would", "should",
   "shall", "may", "might", "must", "of", "by", "as", "if", "then", "else",
   "when", "where", "why", "how", "all", "any", "both", "each", "few", "more",
   "most", "other", "some", "such", "no", "nor", "not", "only", "own", "same",
   "so", "than", "too", "very", "this", "that", "these", "those"]

/-- A character kept by `replace(/[^\w\s]/g, '')`. -/
def jsWordOrSpace (c : Char) : Bool :=
  c.isAlphanum || c = '_' || c.isWhitespace

/-- Tokenization inside `extractKeywords` (part_002:123-126): lowercase,
strip punctuation, split on whitespace, keep non-stop-words longer than 3
characters.  The stop-word set is a parameter, matching the spec's
contract; the source instantiates it with its hard-coded `stopWords`. -/
def keywordWords (stop : List String) (query : String) : List String :=
  ((jsSplitWs ((toLowerStr query).data.filter jsWordOrSpace)).map
    List.asString).filter (fun w => !stop.contains w && w.length > 3)

/-- `wordFreq[word] = (wordFreq[word] || 0) + 1` (part_002:129-132):
property update keeps the key's position, a new key is appended. -/
def bump : List (String × ℕ) → String → List (String × ℕ)
  | [], w => [(w, 1)]
  | p :: ps, w => if p.1 = w then (p.1, p.2 + 1) :: ps else p :: bump ps w

def wordFreqOf (stop : List String) (query : String) : List (String × ℕ) :=
  (keywordWords stop query).foldl bump []

instance decCountDesc : DecidableRel (fun (a b : String × ℕ) => b.2 ≤ a.2) :=
  fun a b => inferInstanceAs (Decidable (b.2 ≤ a.2))

/-- `Object.entries(wordFreq).sort((a, b) => b[1] - a[1])`
(part_002:135-137): JS object enumeration order (array-index keys first,
ascending), then a stable sort by descending count. -/
def sortedEntries (m : List (String × ℕ)) : List (String × ℕ) :=
  (objectEntries m).insertionSort (fun a b => b.2 ≤ a.2)

def extractKeywordsWith (stop : List String) (query : String) : List String :=
  ((sortedEntries (wordFreqOf stop query)).map (fun p => p.1)).take 10

/-- `extractKeywords` (part_002:110-141). -/
def extractKeywords (query : String) : List String :=
  extractKeywordsWith stopWords query

end GeminiMcp

namespace GeminiMcp

/-- Spec-side reading of the `query` requirement: present, a string, and
non-empty. -/
def queryOk (input : JsonVal) : Bool :=
  match input.getField "query" with
  | some (.str s) => s ≠ ""
  | _ => false

/-- What the source's truthiness-plus-`typeof` check actually enforces for
`thoughtNumber` / `totalThoughts`: present, a number, and non-zero
(negative and fractional numbers pass). -/
def numOk (input : JsonVal) (f : String) : Bool :=
  match input.getField f with
  | some (.num q) => q ≠ 0
  | _ => false

def boolOk (input : JsonVal) : Bool :=
  match input.getField "nextThoughtNeeded" with
  | some (.bool _) => true
  | _ => false

/-- The claim's case-INsensitive substring test on section names, for
comparison with the source's case-sensitive `includes`. -/
def ciIncludes (s sub : String) : Bool :=
  jsIncludes (toLowerStr s) (toLowerStr sub)

/-- The path weighting as claim C8 words it: multipliers selected by
case-insensitive name matching. -/
def claimPathWeight (file : String) (score : ℚ) : ℚ :=
  let s1 := if ciIncludes file "test" || ciIncludes file "spec" then
      score * (1 / 2 : ℚ)
    else score
  if ciIncludes file "interface" || ciIncludes file "type"
      || ciIncludes file "model" then
    s1 * (3 / 2 : ℚ)
  else s1

/-- First-match lookup in a frequency table, zero when absent. -/
def lookupCount (m : List (String × ℕ)) (w : String) : ℕ :=
  ((m.find? (fun p => p.1 = w)).map (fun p => p.2)).getD 0

/-- An empty file system, for runs that never load. -/
def noFs : String → Option JsonVal := fun _ => none

def c1Step1 : TurnStep :=
  { fsRead := noFs, gen := .error "offline", now := "t1",
    arg := .obj [("query", .str "q"), ("thought", .str "alpha"),
      ("thoughtNumber", .num 1), ("totalThoughts", .num 2),
      ("nextThoughtNeeded", .bool true)] }

def c1Step2 : TurnStep :=
  { fsRead := noFs, gen := .error "offline", now := "t2",
    arg := .obj [("query", .str "q"), ("thought", .str "beta"),
      ("thoughtNumber", .num 2), ("totalThoughts", .num 2),
      ("nextThoughtNeeded", .bool false), ("branchFromThought", .num 1),
      ("branchId", .str "b1")] }

def c1Obj1 : JsonVal :=
  .obj [("query", .str "q"), ("thought", .str "alpha"),
    ("thoughtNumber", .num 1), ("totalThoughts", .num 2),
    ("nextThoughtNeeded", .bool true)]

def c1Obj2 : JsonVal :=
  .obj [("query", .str "q"), ("thought", .str "beta"),
    ("thoughtNumber", .num 2), ("totalThoughts", .num 2),
    ("nextThoughtNeeded", .bool false), ("branchFromThought", .num 1),
    ("branchId", .str "b1")]

/-- The state after running `c1Step1` then `c1Step2` from the empty store:
two thoughts in the linear history, the second mirrored into branch `b1`. -/
def c1State : SessionState :=
  { thoughtHistory := [c1Obj1, c1Obj2], branches := [("b1", .arr [c1Obj2])] }

def blankArg : JsonVal :=
  .obj [("query", .str "q"), ("thoughtNumber", .num 1),
    ("totalThoughts", .num 1), ("nextThoughtNeeded", .bool true)]

def blankTd : ThoughtData :=
  { query := "q", context := none, approach := none, thought := .str "",
    thoughtNumber := 1, totalThoughts := 1, previousThoughts := none,
    nextThoughtNeeded := true, isRevision := none, revisesThought := none,
    branchFromThought := none, branchId := none, needsMoreThoughts := none,
    metaComments := none, confidenceLevel := none, alternativePaths := none }

def c3Arg : JsonVal :=
  .obj [("query", .str "q"), ("thought", .str "body"),
    ("thoughtNumber", .num 5), ("totalThoughts", .num 3),
    ("nextThoughtNeeded", .bool true)]

def c3Td0 : ThoughtData :=
  { query := "q", context := none, approach := none, thought := .str "body",
    thoughtNumber := 5, totalThoughts := 3, previousThoughts := none,
    nextThoughtNeeded := true, isRevision := none, revisesThought := none,
    branchFromThought := none, branchId := none, needsMoreThoughts := none,
    metaComments := none, confidenceLevel := none, alternativePaths := none }

def c3Td : ThoughtData :=
  { query := "q", context := none, approach := none, thought := .str "body",
    thoughtNumber := 5, totalThoughts := 5, previousThoughts := none,
    nextThoughtNeeded := true, isRevision := none, revisesThought := none,
    branchFromThought := none, branchId := none, needsMoreThoughts := none,
    metaComments := none, confidenceLevel := none, alternativePaths := none }

def c4Td : ThoughtData :=
  { query := "q", context := none, approach := none, thought := .str "beta",
    thoughtNumber := 2, totalThoughts := 2, previousThoughts := none,
    nextThoughtNeeded := false, isRevision := none, revisesThought := none,
    branchFromThought := some (.num 1), branchId := some (.str "b1"),
    needsMoreThoughts := none, metaComments := none, confidenceLevel := none,
    alternativePaths := none }

def c6BadArg : JsonVal :=
  .obj [("query", .num 7), ("thoughtNumber", .num 1),
    ("totalThoughts", .num 1), ("nextThoughtNeeded", .bool true)]

def c6NegArg : JsonVal :=
  .obj [("query", .str "q"), ("thoughtNumber", .num (-5)),
    ("totalThoughts", .num 1), ("nextThoughtNeeded", .bool true)]

def c6NegTd : ThoughtData :=
  { query := "q", context := none, approach := none, thought := .str "",
    thoughtNumber := -5, totalThoughts := 1, previousThoughts := none,
    nextThoughtNeeded := true, isRevision := none, revisesThought := none,
    branchFromThought := none, branchId := none, needsMoreThoughts := none,
    metaComments := none, confidenceLevel := none, alternativePaths := none }

def c10Arg : JsonVal :=
  .obj [("sessionCommand", .str "save"), ("query", .str "q")]

end GeminiMcp

namespace GeminiMcp

instance totalCountDesc : IsTotal (String × ℕ) (fun a b => b.2 ≤ a.2) :=
  ⟨fun a b => Nat.le_total b.2 a.2⟩

instance transCountDesc : IsTrans (String × ℕ) (fun a b => b.2 ≤ a.2) :=
  ⟨fun _ _ _ hab hbc => le_trans hbc hab⟩

theorem append_step (t : TurnStep) (s : SessionState)
    (hthought : isThoughtTurn t.arg = true)
    (hok : (t.run s).isError = false) :
    ∃ x, (t.run s).state.thoughtHistory = s.thoughtHistory ++ [x] := by
  simp only [TurnStep.run, processThought] at hok ⊢
  cases hc : sessionCommandOf t.arg with
  | some c => simp [isThoughtTurn, hc] at hthought
  | none =>
    simp only [hc] at hok ⊢
    cases hv : validateThoughtData t.arg with
    | error m => simp [hv] at hok
    | ok td0 =>
      simp only [hv] at hok ⊢
      cases hf : finalizeThought t.gen td0 with
      | error m => simp [hf] at hok
      | ok td =>
        simp only [hf] at hok ⊢
        by_cases hb : branchCond td = true
        · simp only [hb, if_true] at hok ⊢
          cases hp : pushBranch s.branches (branchKey (td.branchId.getD .null))
              (ThoughtData.toJson td) with
          | error m => simp [hp] at hok
          | ok br2 => simp only [hp]; exact ⟨_, rfl⟩
        · simp only [Bool.not_eq_true] at hb
          simp only [hb, Bool.false_eq_true, if_false]
          exact ⟨_, rfl⟩

theorem run_length (ts : List TurnStep) (s s2 : SessionState)
    (h : SuccessfulAppendRun s ts s2) :
    s2.thoughtHistory.length = s.thoughtHistory.length + ts.length := by
  induction h with
  | nil s => simp
  | cons s t ts s3 hthought hok htail ih =>
    obtain ⟨x, hx⟩ := append_step t s hthought hok
    rw [ih, hx]
    simp
    omega

theorem lookupAssoc_set (m : List (String × JsonVal)) (k : String) (v : JsonVal) :
    lookupAssoc (setAssoc m k v) k = some v := by
  induction m with
  | nil => simp [setAssoc, lookupAssoc]
  | cons p ps ih =>
    by_cases h : p.1 = k
    · simp [setAssoc, h, lookupAssoc, List.find?]
    · simp only [setAssoc, if_neg h]
      simpa [lookupAssoc, List.find?, h] using ih

theorem lookupAssoc_append_new (m : List (String × JsonVal)) (k : String)
    (v : JsonVal) (h : lookupAssoc m k = none) :
    lookupAssoc (m ++ [(k, v)]) k = some v := by
  induction m with
  | nil => simp [lookupAssoc, List.find?]
  | cons p ps ih =>
    by_cases hp : p.1 = k
    · simp [lookupAssoc, List.find?, hp] at h
    · simp only [lookupAssoc, List.cons_append, List.find?, hp] at h ⊢
      simp only [decide_eq_true_eq, hp, decide_False] at h ⊢
      exact ih h

theorem lookupAssoc_mem (m : List (String × JsonVal)) (k : String) (v : JsonVal)
    (h : lookupAssoc m k = some v) : (k, v) ∈ m := by
  induction m with
  | nil => simp [lookupAssoc] at h
  | cons p ps ih =>
    by_cases hp : p.1 = k
    · simp only [lookupAssoc, List.find?, hp, decide_True, Option.map_some,
        Option.some_inj] at h
      cases p
      simp_all
    · simp only [lookupAssoc, List.find?, hp, decide_False] at h
      exact List.mem_cons_of_mem _ (ih h)

theorem pushBranch_ok (s : SessionState) (hbwf : BranchesWellFormed s)
    (k : String) (x : JsonVal) :
    ∃ br2, pushBranch s.branches k x = .ok br2 ∧
      lookupAssoc br2 k = some (.arr (branchListOf s k ++ [x])) := by
  cases h : lookupAssoc s.branches k with
  | none =>
    refine ⟨s.branches ++ [(k, .arr [x])], ?_, ?_⟩
    · simp [pushBranch, h]
    · rw [lookupAssoc_append_new _ _ _ h]
      simp [branchListOf, h]
  | some v =>
    obtain ⟨xs, hxs⟩ := hbwf (k, v) (lookupAssoc_mem _ _ _ h)
    subst hxs
    refine ⟨setAssoc s.branches k (.arr (xs ++ [x])), ?_, ?_⟩
    · simp [pushBranch, h]
    · rw [lookupAssoc_set]
      simp [branchListOf, h]

theorem generate_preserves (gen : Except String String) (td : ThoughtData) :
    (generateThoughtWithGemini gen td).thoughtNumber = td.thoughtNumber ∧
    (generateThoughtWithGemini gen td).totalThoughts = td.totalThoughts ∧
    (generateThoughtWithGemini gen td).nextThoughtNeeded = td.nextThoughtNeeded ∧
    (generateThoughtWithGemini gen td).branchFromThought = td.branchFromThought ∧
    (generateThoughtWithGemini gen td).branchId = td.branchId := by
  cases gen <;> exact ⟨rfl, rfl, rfl, rfl, rfl⟩

theorem finalize_fields (gen : Except String String) (td0 td : ThoughtData)
    (h : finalizeThought gen td0 = .ok td) :
    td.thoughtNumber = td0.thoughtNumber ∧
    td.totalThoughts = (if td0.thoughtNumber > td0.totalThoughts then
      td0.thoughtNumber else td0.totalThoughts) ∧
    td.nextThoughtNeeded = td0.nextThoughtNeeded ∧
    td.branchFromThought = td0.branchFromThought ∧
    td.branchId = td0.branchId := by
  unfold finalizeThought at h
  by_cases hgt : td0.thoughtNumber > td0.totalThoughts
  · simp only [hgt, if_true] at h
    cases hb : blankCheck ({ td0 with totalThoughts := td0.thoughtNumber } :
        ThoughtData).thought with
    | error m => rw [hb] at h; exact absurd h (by simp)
    | ok b =>
      rw [hb] at h
      cases b with
      | true =>
        simp only [Except.ok.injEq] at h
        subst h
        obtain ⟨h1, h2, h3, h4, h5⟩ := generate_preserves gen
          ({ td0 with totalThoughts := td0.thoughtNumber } : ThoughtData)
        simp_all [hgt]
      | false =>
        simp only [Except.ok.injEq] at h
        subst h
        simp [hgt]
  · simp only [hgt, if_false] at h
    cases hb : blankCheck td0.thought with
    | error m => rw [hb] at h; exact absurd h (by simp)
    | ok b =>
      rw [hb] at h
      cases b with
      | true =>
        simp only [Except.ok.injEq] at h
        subst h
        obtain ⟨h1, h2, h3, h4, h5⟩ := generate_preserves gen td0
        exact ⟨h1, by rw [h2, if_neg hgt], h3, h4, h5⟩
      | false =>
        simp only [Except.ok.injEq] at h
        subst h
        exact ⟨rfl, by rw [if_neg hgt], rfl, rfl, rfl⟩

/-- Shape of a successful thought turn: when validation and finalization
succeed and all branch lists are arrays, the turn returns the success
envelope, appends to the history, and mirrors into the branch when both
branch fields are truthy. -/
theorem thought_outcome (fs : String → Option JsonVal)
    (gen : Except String String) (now : String) (input : JsonVal)
    (s : SessionState) (td0 td : ThoughtData)
    (hcmd : sessionCommandOf input = none)
    (hval : validateThoughtData input = .ok td0)
    (hfin : finalizeThought gen td0 = .ok td)
    (hbwf : BranchesWellFormed s) :
    ∃ br2,
      processThought fs gen now input s =
        { envelope := successEnvelope td br2
            (s.thoughtHistory ++ [ThoughtData.toJson td]).length,
          isError := false,
          state := { thoughtHistory := s.thoughtHistory ++ [ThoughtData.toJson td],
                     branches := br2 },
          writes := [] } ∧
      (branchCond td = false → br2 = s.branches) ∧
      (∀ id, td.branchId = some (.str id) → truthyOpt td.branchFromThought = true →
        id ≠ "" →
        lookupAssoc br2 id =
          some (.arr (branchListOf s id ++ [ThoughtData.toJson td]))) := by
  simp only [processThought, hcmd, hval, hfin]
  by_cases hb : branchCond td = true
  · obtain ⟨br2, hpush, hlook⟩ :=
      pushBranch_ok s hbwf (branchKey (td.branchId.getD .null))
        (ThoughtData.toJson td)
    refine ⟨br2, ?_, ?_, ?_⟩
    · simp only [hb, if_true, hpush]
    · intro hfalse; rw [hfalse] at hb; cases hb
    · intro id hid hbft hne
      have hkey : branchKey (td.branchId.getD .null) = id := by rw [hid]; rfl
      rw [hkey] at hlook
      exact hlook
  · simp only [Bool.not_eq_true] at hb
    refine ⟨s.branches, ?_, fun _ => rfl, ?_⟩
    · simp only [hb, Bool.false_eq_true, if_false]
    · intro id hid hbft hne
      exfalso
      have hbc : branchCond td = true := by
        unfold branchCond
        rw [hbft, hid]
        simp [truthyOpt, truthy, hne]
      rw [hbc] at hb; cases hb

end GeminiMcp

namespace GeminiMcp

theorem finalize_gen_error (e : String) (td0 : ThoughtData)
    (hblank : blankCheck td0.thought = .ok true) :
    ∃ td, finalizeThought (.error e) td0 = .ok td ∧
      td.thought = .str ("Error generating thought: " ++ e) ∧
      td.nextThoughtNeeded = td0.nextThoughtNeeded := by
  unfold finalizeThought
  by_cases hgt : td0.thoughtNumber > td0.totalThoughts
  · simp only [hgt, if_true]
    have h2 : blankCheck ({ td0 with totalThoughts := td0.thoughtNumber } :
        ThoughtData).thought = .ok true := hblank
    rw [h2]
    exact ⟨_, rfl, rfl, rfl⟩
  · simp only [hgt, if_false]
    rw [hblank]
    exact ⟨_, rfl, rfl, rfl⟩

theorem envelope_thought_field (td : ThoughtData) (br : List (String × JsonVal))
    (n : ℕ) : (successEnvelope td br n).getField "thought" = some td.thought := by
  with_unfolding_all rfl

theorem envelope_next_field (td : ThoughtData) (br : List (String × JsonVal))
    (n : ℕ) : (successEnvelope td br n).getField "nextThoughtNeeded" =
      some (.bool td.nextThoughtNeeded) := by
  with_unfolding_all rfl

theorem query_guard (input : JsonVal) :
    (!truthyOpt (input.getField "query")
      || !((input.getField "query").map JsonVal.isStr).getD false) =
      !queryOk input := by
  cases h : input.getField "query" with
  | none => simp [truthyOpt, queryOk, h]
  | some v => cases v <;> simp [truthyOpt, truthy, JsonVal.isStr, queryOk, h]

theorem num_guard (input : JsonVal) (f : String) :
    (!truthyOpt (input.getField f)
      || !(match input.getField f with | some (.num _) => true | _ => false)) =
      !numOk input f := by
  cases h : input.getField f with
  | none => simp [truthyOpt, numOk, h]
  | some v => cases v <;> simp [truthyOpt, truthy, numOk, h]

theorem validate_ok_iff (input : JsonVal) :
    (∃ td, validateThoughtData input = .ok td) ↔
      (queryOk input && numOk input "thoughtNumber"
        && numOk input "totalThoughts" && boolOk input) = true := by
  simp only [validateThoughtData]
  rw [query_guard, num_guard, num_guard]
  by_cases hq : queryOk input
  · simp only [hq, Bool.not_true, Bool.true_and, if_false]
    by_cases h1 : numOk input "thoughtNumber"
    · simp only [h1, Bool.not_true, Bool.true_and, if_false]
      by_cases h2 : numOk input "totalThoughts"
      · simp only [h2, Bool.not_true, Bool.true_and, if_false]
        cases hb : input.getField "nextThoughtNeeded" with
        | none => simp [boolOk, hb]
        | some v => cases v <;> simp [boolOk, hb]
      · simp [h2]
    · simp [h1]
  · simp [hq]

theorem validate_error_msg (input : JsonVal) (msg : String)
    (h : validateThoughtData input = .error msg) :
    msg = "Invalid query: must be a string"
    ∨ msg = "Invalid thoughtNumber: must be a number"
    ∨ msg = "Invalid totalThoughts: must be a number"
    ∨ msg = "Invalid nextThoughtNeeded: must be a boolean" := by
  simp only [validateThoughtData] at h
  by_cases c1 : (!truthyOpt (input.getField "query")
      || !((input.getField "query").map JsonVal.isStr).getD false) = true
  · rw [if_pos c1] at h
    exact Or.inl (by cases h; rfl)
  · rw [if_neg c1] at h
    by_cases c2 : (!truthyOpt (input.getField "thoughtNumber")
        || !(match input.getField "thoughtNumber" with
              | some (.num _) => true | _ => false)) = true
    · rw [if_pos c2] at h
      exact Or.inr (Or.inl (by cases h; rfl))
    · rw [if_neg c2] at h
      by_cases c3 : (!truthyOpt (input.getField "totalThoughts")
          || !(match input.getField "totalThoughts" with
                | some (.num _) => true | _ => false)) = true
      · rw [if_pos c3] at h
        exact Or.inr (Or.inr (Or.inl (by cases h; rfl)))
      · rw [if_neg c3] at h
        cases hb : input.getField "nextThoughtNeeded" with
        | none =>
          rw [hb] at h
          exact Or.inr (Or.inr (Or.inr (by cases h; rfl)))
        | some v =>
          rw [hb] at h
          cases v <;> first
            | (exact Or.inr (Or.inr (Or.inr (by cases h; rfl))))
            | cases h

theorem validate_error_outcome (fs : String → Option JsonVal)
    (gen : Except String String) (now : String) (input : JsonVal)
    (s : SessionState) (msg : String)
    (hcmd : sessionCommandOf input = none)
    (hval : validateThoughtData input = .error msg) :
    processThought fs gen now input s =
      { envelope := errorEnvelope msg, isError := true, state := s,
        writes := [] } := by
  simp only [processThought, hcmd, hval]

end GeminiMcp

namespace GeminiMcp

theorem lookupCount_bump (m : List (String × ℕ)) (w u : String) :
    lookupCount (bump m w) u = lookupCount m u + (if w = u then 1 else 0) := by
  induction m with
  | nil =>
    by_cases h : w = u <;> simp [bump, lookupCount, List.find?, h]
  | cons p ps ih =>
    by_cases hp : p.1 = w
    · simp only [bump, hp, if_true]
      by_cases hu : w = u
      · subst hu
        simp [lookupCount, List.find?, hp]
      · have hpu : ¬ p.1 = u := by rw [hp]; exact hu
        simp [lookupCount, List.find?, hpu, hu]
    · simp only [bump, hp, if_false]
      by_cases hpu : p.1 = u
      · have hwu : ¬ w = u := fun h => hp (by rw [h, ← hpu])
        simp [lookupCount, List.find?, hpu, hwu]
      · simp only [lookupCount, List.find?, hpu, decide_False] at ih ⊢
        simpa [lookupCount] using ih

theorem lookupCount_foldl (ws : List String) (m : List (String × ℕ))
    (u : String) :
    lookupCount (ws.foldl bump m) u = lookupCount m u + ws.count u := by
  induction ws generalizing m with
  | nil => simp
  | cons w ws ih =>
    rw [List.foldl_cons, ih, lookupCount_bump, List.count_cons]
    by_cases h : w = u
    · simp [h, beq_iff_eq]
      omega
    · have h2 : ¬ (u == w) = true := by
        simp only [beq_iff_eq]
        exact fun hh => h hh.symm
      simp [h, h2]

theorem lookupCount_wordFreq (stop : List String) (query : String) (u : String) :
    lookupCount (wordFreqOf stop query) u = (keywordWords stop query).count u := by
  unfold wordFreqOf
  rw [lookupCount_foldl]
  simp [lookupCount, List.find?]

theorem bump_keys (m : List (String × ℕ)) (w : String) :
    (bump m w).map Prod.fst =
      if w ∈ m.map Prod.fst then m.map Prod.fst else m.map Prod.fst ++ [w] := by
  induction m with
  | nil => simp [bump]
  | cons p ps ih =>
    by_cases hp : p.1 = w
    · simp [bump, hp]
    · have h2 : ¬ w = p.1 := fun h => hp h.symm
      simp only [bump, hp, if_false, List.map_cons, List.mem_cons, h2,
        false_or, ih]
      by_cases hw : w ∈ ps.map Prod.fst <;> simp [hw]

theorem bump_nodup (m : List (String × ℕ)) (w : String)
    (h : (m.map Prod.fst).Nodup) : ((bump m w).map Prod.fst).Nodup := by
  rw [bump_keys]
  by_cases hw : w ∈ m.map Prod.fst
  · simpa [hw] using h
  · simp only [hw, if_false]
    simp [List.nodup_append, h, hw]

theorem foldl_bump_nodup (ws : List String) (m : List (String × ℕ))
    (h : (m.map Prod.fst).Nodup) : ((ws.foldl bump m).map Prod.fst).Nodup := by
  induction ws generalizing m with
  | nil => simpa
  | cons w ws ih => exact ih _ (bump_nodup m w h)

theorem mem_lookupCount (m : List (String × ℕ)) (p : String × ℕ)
    (hnd : (m.map Prod.fst).Nodup) (hp : p ∈ m) : lookupCount m p.1 = p.2 := by
  induction m with
  | nil => cases hp
  | cons q ps ih =>
    cases hp with
    | head => simp [lookupCount, List.find?]
    | tail _ hp =>
      have hq : ¬ q.1 = p.1 := by
        intro hh
        have hmem : p.1 ∈ ps.map Prod.fst := List.mem_map_of_mem Prod.fst hp
        rw [List.map_cons, List.nodup_cons, hh] at hnd
        exact hnd.1 hmem
      simp only [lookupCount, List.find?, hq, decide_False]
      exact ih (by rw [List.map_cons, List.nodup_cons] at hnd; exact hnd.2) hp

theorem objectEntries_perm (m : List (String × ℕ)) : (objectEntries m).Perm m := by
  unfold objectEntries
  refine List.Perm.trans (List.Perm.append ?_ (List.Perm.refl _))
    (List.filter_append_perm _ m)
  exact List.perm_insertionSort _ _

theorem sortedEntries_perm (m : List (String × ℕ)) : (sortedEntries m).Perm m :=
  List.Perm.trans (List.perm_insertionSort _ _) (objectEntries_perm m)

theorem sortedEntries_pairwise (m : List (String × ℕ)) :
    (sortedEntries m).Pairwise (fun a b => b.2 ≤ a.2) :=
  List.sorted_insertionSort _ _

theorem extractKeywords_pairwise (stop : List String) (query : String) :
    (extractKeywordsWith stop query).Pairwise
      (fun w1 w2 => (keywordWords stop query).count w2 ≤
        (keywordWords stop query).count w1) := by
  unfold extractKeywordsWith
  have hnd : ((wordFreqOf stop query).map Prod.fst).Nodup :=
    foldl_bump_nodup _ [] (by simp)
  have hmem : ∀ p ∈ sortedEntries (wordFreqOf stop query),
      p.2 = (keywordWords stop query).count p.1 := by
    intro p hp
    have hpm : p ∈ wordFreqOf stop query :=
      (sortedEntries_perm _).mem_iff.mp hp
    rw [← lookupCount_wordFreq stop query p.1]
    exact (mem_lookupCount _ p hnd hpm).symm
  have h1 : (sortedEntries (wordFreqOf stop query)).Pairwise
      (fun a b => (keywordWords stop query).count b.1 ≤
        (keywordWords stop query).count a.1) := by
    refine (sortedEntries_pairwise _).imp_of_mem ?_
    intro a b ha hb hab
    rw [← hmem a ha, ← hmem b hb]
    exact hab
  have h2 := (List.pairwise_map
    (R := fun u v => (keywordWords stop query).count v ≤
      (keywordWords stop query).count u)
    (f := fun p : String × ℕ => p.1)
    (l := sortedEntries (wordFreqOf stop query))).mpr h1
  exact h2.sublist (List.take_sublist _ _)

theorem extractKeywords_nodup (stop : List String) (query : String) :
    (extractKeywordsWith stop query).Nodup := by
  unfold extractKeywordsWith
  have hnd : ((wordFreqOf stop query).map Prod.fst).Nodup :=
    foldl_bump_nodup _ [] (by simp)
  have h2 : ((sortedEntries (wordFreqOf stop query)).map Prod.fst).Nodup :=
    ((((sortedEntries_perm (wordFreqOf stop query)).map
      Prod.fst)).nodup_iff).mpr hnd
  exact h2.sublist (List.take_sublist _ _)

theorem extractKeywords_len (stop : List String) (query : String) :
    (extractKeywordsWith stop query).length ≤ 10 := by
  unfold extractKeywordsWith
  exact List.length_take_le 10 _

end GeminiMcp

namespace GeminiMcp

/-- The concrete two-append run behind the reachable witness state: a plain
thought, then a thought branching from it into `b1`. -/
theorem c1_run : SuccessfulAppendRun initialState [c1Step1, c1Step2] c1State := by
  refine SuccessfulAppendRun.cons _ _ _ _ (by with_unfolding_all rfl)
    (by with_unfolding_all rfl) ?_
  refine SuccessfulAppendRun.cons _ _ _ _ (by with_unfolding_all rfl)
    (by with_unfolding_all rfl) ?_
  with_unfolding_all exact SuccessfulAppendRun.nil _

/-- C1: for every store state built by successful appends (including at
least one branching thought), loading the session object produced by saving
that store yields `true` and a store whose linear history and branch mapping
are exactly the original's; only the file's `timestamp` and `version` fields
(not part of the state) vary with the clock. -/
theorem c1_round_trip (now : String) (s s0 : SessionState)
    (_hreach : Reachable s) :
    loadSession (some (saveSessionData now s)) s0 = (true, s) := by
  with_unfolding_all rfl

theorem c1_round_trip_witness :
    Reachable c1State ∧
    loadSession (some (saveSessionData "t3" c1State)) initialState =
      (true, c1State) :=
  ⟨⟨[c1Step1, c1Step2], c1_run⟩,
    c1_round_trip "t3" c1State initialState ⟨[c1Step1, c1Step2], c1_run⟩⟩

/-- C2: when a validated turn's body is blank and the generator oracle
fails with message `e`, the turn still succeeds: no error flag, a thought is
appended whose body is the diagnostic string embedding `e`, and
`nextThoughtNeeded` — stored and returned — is the input's value. -/
theorem c2_generator_failure_absorbed (fs : String → Option JsonVal)
    (e now : String) (input : JsonVal) (s : SessionState) (td0 : ThoughtData)
    (hcmd : sessionCommandOf input = none)
    (hval : validateThoughtData input = .ok td0)
    (hblank : blankCheck td0.thought = .ok true)
    (hbwf : BranchesWellFormed s) :
    (processThought fs (.error e) now input s).isError = false ∧
    ∃ td, finalizeThought (.error e) td0 = .ok td ∧
      td.thought = .str ("Error generating thought: " ++ e) ∧
      td.nextThoughtNeeded = td0.nextThoughtNeeded ∧
      (processThought fs (.error e) now input s).state.thoughtHistory =
        s.thoughtHistory ++ [ThoughtData.toJson td] ∧
      (processThought fs (.error e) now input s).envelope.getField "thought" =
        some (.str ("Error generating thought: " ++ e)) ∧
      (processThought fs (.error e) now input
          s).envelope.getField "nextThoughtNeeded" =
        some (.bool td0.nextThoughtNeeded) := by
  obtain ⟨td, hfin, hth, hnext⟩ := finalize_gen_error e td0 hblank
  obtain ⟨br2, hout, _, _⟩ :=
    thought_outcome fs (.error e) now input s td0 td hcmd hval hfin hbwf
  rw [hout]
  refine ⟨rfl, td, hfin, hth, hnext, rfl, ?_, ?_⟩
  · rw [envelope_thought_field, hth]
  · rw [envelope_next_field, hnext]

theorem c2_generator_failure_absorbed_witness :
    (processThought noFs (.error "boom") "t0" blankArg initialState).isError =
      false ∧
    ∃ td, finalizeThought (.error "boom") blankTd = .ok td ∧
      td.thought = .str ("Error generating thought: " ++ "boom") ∧
      td.nextThoughtNeeded = blankTd.nextThoughtNeeded ∧
      (processThought noFs (.error "boom") "t0" blankArg
          initialState).state.thoughtHistory =
        initialState.thoughtHistory ++ [ThoughtData.toJson td] ∧
      (processThought noFs (.error "boom") "t0" blankArg
          initialState).envelope.getField "thought" =
        some (.str ("Error generating thought: " ++ "boom")) ∧
      (processThought noFs (.error "boom") "t0" blankArg
          initialState).envelope.getField "nextThoughtNeeded" =
        some (.bool blankTd.nextThoughtNeeded) :=
  c2_generator_failure_absorbed noFs "boom" "t0" blankArg initialState blankTd
    (by with_unfolding_all rfl) (by with_unfolding_all rfl)
    (by with_unfolding_all rfl) (fun p hp => absurd hp (List.not_mem_nil p))

/-- C3: a validated turn whose `thoughtNumber` exceeds `totalThoughts` is
never rejected for that reason — it completes and stores a thought with
`totalThoughts` raised to `thoughtNumber`; otherwise the input's
`totalThoughts` is stored unchanged. -/
theorem c3_total_planned_raised (fs : String → Option JsonVal)
    (gen : Except String String) (now : String) (input : JsonVal)
    (s : SessionState) (td0 td : ThoughtData)
    (hcmd : sessionCommandOf input = none)
    (hval : validateThoughtData input = .ok td0)
    (hfin : finalizeThought gen td0 = .ok td)
    (hbwf : BranchesWellFormed s) :
    (processThought fs gen now input s).isError = false ∧
    (processThought fs gen now input s).state.thoughtHistory =
      s.thoughtHistory ++ [ThoughtData.toJson td] ∧
    td.thoughtNumber = td0.thoughtNumber ∧
    td.totalThoughts = (if td0.thoughtNumber > td0.totalThoughts then
      td0.thoughtNumber else td0.totalThoughts) := by
  obtain ⟨br2, hout, _, _⟩ :=
    thought_outcome fs gen now input s td0 td hcmd hval hfin hbwf
  obtain ⟨h1, h2, _, _, _⟩ := finalize_fields gen td0 td hfin
  rw [hout]
  exact ⟨rfl, rfl, h1, h2⟩

theorem c3_total_planned_raised_witness :
    (processThought noFs (.error "offline") "t0" c3Arg initialState).isError =
      false ∧
    (processThought noFs (.error "offline") "t0" c3Arg
        initialState).state.thoughtHistory =
      initialState.thoughtHistory ++ [ThoughtData.toJson c3Td] ∧
    c3Td.thoughtNumber = c3Td0.thoughtNumber ∧
    c3Td.totalThoughts = (if c3Td0.thoughtNumber > c3Td0.totalThoughts then
      c3Td0.thoughtNumber else c3Td0.totalThoughts) :=
  c3_total_planned_raised noFs (.error "offline") "t0" c3Arg initialState
    c3Td0 c3Td (by with_unfolding_all rfl) (by with_unfolding_all rfl)
    (by with_unfolding_all rfl) (fun p hp => absurd hp (List.not_mem_nil p))

/-- C4: a successfully processed thought carrying truthy `branchFromThought`
and a non-empty string `branchId` lands both at the end of the linear
history and at the end of the named branch's list (created on first use);
and after any run of `N` successful thought appends from the empty store the
history length is exactly `N`. -/
theorem c4_branch_mirror_and_history :
    (∀ (fs : String → Option JsonVal) (gen : Except String String)
      (now : String) (input : JsonVal) (s : SessionState)
      (td0 td : ThoughtData) (id : String),
      sessionCommandOf input = none →
      validateThoughtData input = .ok td0 →
      finalizeThought gen td0 = .ok td →
      truthyOpt td.branchFromThought = true →
      td.branchId = some (.str id) →
      id ≠ "" →
      BranchesWellFormed s →
      (processThought fs gen now input s).isError = false ∧
      (processThought fs gen now input s).state.thoughtHistory =
        s.thoughtHistory ++ [ThoughtData.toJson td] ∧
      lookupAssoc (processThought fs gen now input s).state.branches id =
        some (.arr (branchListOf s id ++ [ThoughtData.toJson td]))) ∧
    (∀ (ts : List TurnStep) (s2 : SessionState),
      SuccessfulAppendRun initialState ts s2 →
      s2.thoughtHistory.length = ts.length) := by
  constructor
  · intro fs gen now input s td0 td id hcmd hval hfin hbft hbid hne hbwf
    obtain ⟨br2, hout, _, hlook⟩ :=
      thought_outcome fs gen now input s td0 td hcmd hval hfin hbwf
    rw [hout]
    exact ⟨rfl, rfl, hlook id hbid hbft hne⟩
  · intro ts s2 h
    have h2 := run_length ts initialState s2 h
    simpa [initialState] using h2

theorem c4_branch_mirror_and_history_witness :
    ((processThought noFs (.error "offline") "t2" c1Step2.arg
        initialState).isError = false ∧
      (processThought noFs (.error "offline") "t2" c1Step2.arg
          initialState).state.thoughtHistory =
        initialState.thoughtHistory ++ [ThoughtData.toJson c4Td] ∧
      lookupAssoc (processThought noFs (.error "offline") "t2" c1Step2.arg
          initialState).state.branches "b1" =
        some (.arr (branchListOf initialState "b1" ++
          [ThoughtData.toJson c4Td]))) ∧
    c1State.thoughtHistory.length = ([c1Step1, c1Step2] : List TurnStep).length :=
  ⟨c4_branch_mirror_and_history.1 noFs (.error "offline") "t2" c1Step2.arg
      initialState c4Td c4Td "b1" (by with_unfolding_all rfl)
      (by with_unfolding_all rfl) (by with_unfolding_all rfl) rfl rfl
      (by decide) (fun p hp => absurd hp (List.not_mem_nil p)),
    c4_branch_mirror_and_history.2 [c1Step1, c1Step2] c1State c1_run⟩

end GeminiMcp

namespace GeminiMcp

/-- C5 (amended): a load whose payload lacks a `thoughtHistory` field, or
whose `thoughtHistory` is not an array, fails and leaves the prior state
untouched, as does a missing/unreadable file; but the elements of a
`thoughtHistory` array are NOT validated — any array is accepted wholesale
and replaces the live history. -/
theorem c5_load_validation_amended (payload : JsonVal) (s : SessionState) :
    ((∀ xs, payload.getField "thoughtHistory" ≠ some (.arr xs)) →
      loadSession (some payload) s = (false, s)) ∧
    (∀ xs, payload.getField "thoughtHistory" = some (.arr xs) →
      (loadSession (some payload) s).1 = true ∧
      (loadSession (some payload) s).2.thoughtHistory = xs) ∧
    loadSession none s = (false, s) := by
  refine ⟨?_, ?_, rfl⟩
  · intro h
    simp only [loadSession]
  · intro xs hxs
    simp [loadSession, hxs]

theorem c5_load_validation_amended_witness :
    loadSession (some (.obj [("note", .str "x")])) c1State =
      (false, c1State) ∧
    (loadSession (some (.obj [("thoughtHistory", .arr [.obj []])]))
      c1State).1 = true ∧
    (loadSession (some (.obj [("thoughtHistory", .arr [.obj []])]))
      c1State).2.thoughtHistory = [.obj []] :=
  ⟨(c5_load_validation_amended (.obj [("note", .str "x")]) c1State).1
      (fun xs h => by
        rw [show (JsonVal.obj [("note", JsonVal.str "x")]).getField
          "thoughtHistory" = none from by with_unfolding_all rfl] at h
        cases h),
    ((c5_load_validation_amended (.obj [("thoughtHistory", .arr [.obj []])])
        c1State).2.1 [.obj []] (by with_unfolding_all rfl)).1,
    ((c5_load_validation_amended (.obj [("thoughtHistory", .arr [.obj []])])
        c1State).2.1 [.obj []] (by with_unfolding_all rfl)).2⟩

/-- C5 counterexample: a payload whose history array contains an element
with none of the required Thought fields is claimed to be rejected without
mutation; the code accepts it (`true`) and replaces the store's history with
the malformed array. -/
theorem c5_load_validation_counterexample :
    (loadSession (some (.obj [("thoughtHistory", .arr [.obj []])]))
      initialState).1 = true ∧
    (loadSession (some (.obj [("thoughtHistory", .arr [.obj []])]))
      initialState).2.thoughtHistory.length = 1 ∧
    initialState.thoughtHistory.length = 0 :=
  ⟨by with_unfolding_all rfl, by with_unfolding_all rfl, rfl⟩

/-- C6 (amended): validation succeeds exactly when `query` is a non-empty
string, `thoughtNumber` and `totalThoughts` are present non-zero numbers
(negative and fractional values pass — only falsy or wrongly-typed values
are rejected), and `nextThoughtNeeded` is a boolean; every failure carries
one of the four field-naming messages and is returned as a structured error
envelope with the state unchanged and nothing written. -/
theorem c6_validation_amended :
    (∀ input : JsonVal, (∃ td, validateThoughtData input = .ok td) ↔
      (queryOk input && numOk input "thoughtNumber"
        && numOk input "totalThoughts" && boolOk input) = true) ∧
    (∀ input msg, validateThoughtData input = .error msg →
      msg = "Invalid query: must be a string"
      ∨ msg = "Invalid thoughtNumber: must be a number"
      ∨ msg = "Invalid totalThoughts: must be a number"
      ∨ msg = "Invalid nextThoughtNeeded: must be a boolean") ∧
    (∀ (fs : String → Option JsonVal) (gen : Except String String)
      (now : String) (input : JsonVal) (s : SessionState) (msg : String),
      sessionCommandOf input = none →
      validateThoughtData input = .error msg →
      processThought fs gen now input s =
        { envelope := errorEnvelope msg, isError := true, state := s,
          writes := [] }) :=
  ⟨validate_ok_iff, validate_error_msg,
    fun fs gen now input s msg hcmd hval =>
      validate_error_outcome fs gen now input s msg hcmd hval⟩

theorem c6_validation_amended_witness :
    (∃ td, validateThoughtData blankArg = .ok td) ∧
    ("Invalid query: must be a string" = "Invalid query: must be a string"
      ∨ "Invalid query: must be a string" =
          "Invalid thoughtNumber: must be a number"
      ∨ "Invalid query: must be a string" =
          "Invalid totalThoughts: must be a number"
      ∨ "Invalid query: must be a string" =
          "Invalid nextThoughtNeeded: must be a boolean") ∧
    processThought noFs (.error "offline") "t0" c6BadArg initialState =
      { envelope := errorEnvelope "Invalid query: must be a string",
        isError := true, state := initialState, writes := [] } :=
  ⟨(c6_validation_amended.1 blankArg).mpr (by with_unfolding_all rfl),
    c6_validation_amended.2.1 c6BadArg "Invalid query: must be a string"
      (by with_unfolding_all rfl),
    c6_validation_amended.2.2 noFs (.error "offline") "t0" c6BadArg
      initialState "Invalid query: must be a string"
      (by with_unfolding_all rfl) (by with_unfolding_all rfl)⟩

/-- C6 counterexample: the claim says validation fails whenever `index` is
not a positive number, but `thoughtNumber = -5` — not positive — passes
validation (only falsy values are caught by `!data.thoughtNumber`). -/
theorem c6_validation_counterexample :
    validateThoughtData c6NegArg = .ok c6NegTd ∧ ¬ (0 < (-5 : ℚ)) :=
  ⟨by with_unfolding_all rfl, by norm_num⟩

end GeminiMcp

namespace GeminiMcp

/-- C7: the scorer feeds terms to `new RegExp(term, 'g')` without escaping,
so a term with regex metacharacters is pattern-interpreted, not literal.
Query `"a.cd"` over the section `File: a` with body `axcd` scores the
section 2 (the dot matches `x`), while the literal occurrence count of
`"a.cd"` in the section text is 0 — the spec-required literal scoring would
give 0. -/
theorem c7_regex_scoring_bug :
    queryTermsOf "a.cd" = ["a.cd"] ∧
    jsMatchCount "a.cd".data (toLowerStr "File: a\naxcd\n").data = 1 ∧
    literalCount "a.cd".data (toLowerStr "File: a\naxcd\n").data = 0 ∧
    fileScoresOf "File: a\naxcd" "a.cd" [] = [("a", 2)] ∧
    adjustedScore "a"
      ((literalCount "a.cd".data (toLowerStr "File: a\naxcd\n").data : ℚ) * 2) =
      0 :=
  ⟨by with_unfolding_all rfl, by with_unfolding_all rfl,
    by with_unfolding_all rfl, by with_unfolding_all rfl,
    by with_unfolding_all rfl⟩

/-- C8 (amended): the weighting multiplies the frequency score by `0.5` for
names containing `test` or `spec` and then by `1.5` for names containing
`interface`, `type` or `model`, both multiplicatively — but through the
case-SENSITIVE `String.prototype.includes`; with equal positive raw counts
the non-test section outranks the test section strictly (the worked example
puts the test file first in the document yet second in the ranking). -/
theorem c8_path_weight_amended :
    (∀ file score, adjustedScore file score =
      (if jsIncludes file "test" || jsIncludes file "spec" then (1 / 2 : ℚ)
        else 1) *
      ((if jsIncludes file "interface" || jsIncludes file "type"
          || jsIncludes file "model" then (3 / 2 : ℚ) else 1) * score)) ∧
    (∀ doc query keywords, fileScoresOf doc query keywords =
      (parseFiles doc).map (fun p =>
        (p.1, adjustedScore p.1 (freqScore (queryTermsOf query) keywords p.2)))) ∧
    sortedFilesOf "File: b.test.ts\nabcd abcd abcd\nFile: a.ts\nabcd abcd abcd"
      "abcd wxyz" [] = [("a.ts", 6), ("b.test.ts", 3)] ∧
    ((3 : ℚ) < 6 ∧ (3 : ℚ) = (1 / 2) * 6) := by
  refine ⟨?_, fun doc query keywords => rfl, by with_unfolding_all rfl,
    by norm_num⟩
  intro file score
  unfold adjustedScore
  by_cases h1 : (jsIncludes file "test" || jsIncludes file "spec") = true
  all_goals by_cases h2 : (jsIncludes file "interface" || jsIncludes file "type"
      || jsIncludes file "model") = true
  all_goals simp [h1, h2]
  all_goals ring

/-- C8 counterexample: the claim's multipliers are case-insensitive, but the
code's are not — the section named `ATEST` keeps its full score 2, while
the claim's weighting would halve it to 1. -/
theorem c8_path_weight_counterexample :
    fileScoresOf "File: ATEST\nabcd" "abcd wxyz" [] = [("ATEST", 2)] ∧
    claimPathWeight "ATEST" 2 = 1 ∧ ((2 : ℚ) ≠ 1) :=
  ⟨by with_unfolding_all rfl, by with_unfolding_all rfl,
    by with_unfolding_all decide⟩

/-- C9 (amended): keyword extraction lowercases, strips punctuation, splits
on whitespace, discards stop-words and tokens shorter than 4 characters,
and returns at most 10 distinct tokens in non-increasing frequency order —
but equal-frequency tokens keep first-occurrence order only among
non-numeric tokens: all-digit tokens that are canonical array indices
enumerate first (ascending) because the frequency table is a JS object.
With stop-words `{the, over}`, the spec's example sentence yields exactly
`["quick", "brown", "jumps", "lazy"]`. -/
theorem c9_keyword_extraction_amended :
    extractKeywordsWith ["the", "over"]
      "The quick brown fox jumps over the lazy dog" =
      ["quick", "brown", "jumps", "lazy"] ∧
    (∀ stop query, (extractKeywordsWith stop query).length ≤ 10) ∧
    (∀ stop query, (extractKeywordsWith stop query).Pairwise
      (fun w1 w2 => (keywordWords stop query).count w2 ≤
        (keywordWords stop query).count w1)) ∧
    (∀ stop query, (extractKeywordsWith stop query).Nodup) :=
  ⟨by with_unfolding_all rfl, extractKeywords_len, extractKeywords_pairwise,
    extractKeywords_nodup⟩

/-- C9 counterexample: both tokens of `"abcd 2024"` have frequency 1, so the
claimed stable first-occurrence tie-break demands `["abcd", "2024"]`; the
code returns `["2024", "abcd"]` because `"2024"` is an array-index key of
the frequency object and enumerates first. -/
theorem c9_keyword_extraction_counterexample :
    extractKeywords "abcd 2024" = ["2024", "abcd"] ∧
    (keywordWords stopWords "abcd 2024").count "abcd" = 1 ∧
    (keywordWords stopWords "abcd 2024").count "2024" = 1 ∧
    ["2024", "abcd"] ≠ ["abcd", "2024"] :=
  ⟨by with_unfolding_all rfl, by with_unfolding_all rfl,
    by with_unfolding_all rfl, by decide⟩

/-- C10: a request whose `sessionCommand` is `save` or `load` but whose
`sessionPath` is absent or not a string falls through every command guard
and yields the unknown-session-command error envelope naming the command,
with `isError` set, no state change, and no file I/O (the outcome is the
same for every file system and `writes` is empty). -/
theorem c10_unknown_command_missing_path (fs : String → Option JsonVal)
    (gen : Except String String) (now : String) (input : JsonVal)
    (s : SessionState) (cmd : String)
    (hcmd : sessionCommandOf input = some cmd)
    (hcc : cmd = "save" ∨ cmd = "load")
    (hpath : ∀ v, input.getField "sessionPath" = some v → v.isStr = false) :
    processThought fs gen now input s =
      { envelope := .obj [("status", .str "error"),
          ("message", .str ("Unknown session command: " ++ cmd)),
          ("command", .str cmd)],
        isError := true, state := s, writes := [] } := by
  simp only [processThought, hcmd]
  cases hv : input.getField "sessionPath" with
  | none =>
    rcases hcc with rfl | rfl <;> simp [hv, truthyOpt]
  | some v =>
    have hs := hpath v hv
    rcases hcc with rfl | rfl <;> simp [hv, truthyOpt, hs]

theorem c10_unknown_command_missing_path_witness :
    processThought noFs (.error "offline") "t0" c10Arg c1State =
      { envelope := .obj [("status", .str "error"),
          ("message", .str ("Unknown session command: " ++ "save")),
          ("command", .str "save")],
        isError := true, state := c1State, writes := [] } :=
  c10_unknown_command_missing_path noFs (.error "offline") "t0" c10Arg c1State
    "save" (by with_unfolding_all rfl) (Or.inl rfl)
    (fun v h => by
      rw [show c10Arg.getField "sessionPath" = none from
        by with_unfolding_all rfl] at h
      cases h)

end GeminiMcp
